import Mathlib

set_option maxHeartbeats 1000000
set_option maxRecDepth 4000

/-! Shallow embedding of the raysect pinhole camera renderer
(src/raysect/optical/observer/pinholecamera.py) and of the debug Light
material (src/raysect/optical/material/debug.py).  Machine floats are
modelled as exact rationals and Python integers as ℤ.  External
collaborators (the tracing collaborator, the colour pipeline, the
matplotlib display) are abstract parameters, except where only the spec
describes them; those definitions are marked `Modelled from the spec`. -/

/-- A 3-component vector with rational components, modelling the raysect
Vector used for ray directions and surface normals. -/
structure Vec3 where
  x : ℚ
  y : ℚ
  z : ℚ
deriving DecidableEq

/-- Dot product of two vectors (Vector.dot). -/
def Vec3.dot (a b : Vec3) : ℚ := a.x * b.x + a.y * b.y + a.z * b.z

/-- Squared Euclidean norm of a vector. -/
def Vec3.normSq (v : Vec3) : ℚ := v.x ^ 2 + v.y ^ 2 + v.z ^ 2

/-- `w` is the positive rescaling of `v` with unit norm: the defining
property of the source `Vector.normalise()` (division by the Euclidean
norm), stated relationally because the norm is irrational in general. -/
def IsUnitScaling (v w : Vec3) : Prop :=
  (∃ c : ℚ, 0 < c ∧ w = ⟨c * v.x, c * v.y, c * v.z⟩) ∧ Vec3.normSq w = 1

/-- Square of the x-component of `v.normalise()`: since the normalised
x-component is `v.x / sqrt (normSq v)`, its square is the rational value
`v.x ^ 2 / normSq v`, usable for exact magnitude comparison of normalised
x-components. -/
def xCompSqOfUnit (v : Vec3) : ℚ := v.x ^ 2 / Vec3.normSq v

/-- Image-plane scan parameters computed at the start of observe
(pinholecamera.py lines 102-121). -/
structure ImagePlane where
  image_delta : ℚ
  image_start_x : ℚ
  image_start_y : ℚ
deriving DecidableEq

/-- pinholecamera.py lines 102-121.  `tan_half_fov` is the value of
`tan(pi / 180 * 0.5 * fov)`, kept abstract because it is transcendental;
line 107 sets `image_max_width = 2 * tan_half_fov`. -/
def imagePlane (pixels : ℤ × ℤ) (tan_half_fov : ℚ) : ImagePlane :=
  let max_pixels := max pixels.1 pixels.2
  if 1 < max_pixels then
    let image_max_width := 2 * tan_half_fov
    let image_delta := image_max_width / ((max_pixels : ℚ) - 1)
    { image_delta := image_delta
      image_start_x := 1/2 * (pixels.1 : ℚ) * image_delta
      image_start_y := 1/2 * (pixels.2 : ℚ) * image_delta }
  else
    { image_delta := 0, image_start_x := 0, image_start_y := 0 }

/-- Camera-space, unnormalised ray direction for the pixel in column `x`
and row `y` (pinholecamera.py line 181, the Vector before
`.normalise()`). -/
def rayDirection (ip : ImagePlane) (x y : ℤ) : Vec3 :=
  ⟨ip.image_start_x - ip.image_delta * (x : ℚ),
   ip.image_start_y - ip.image_delta * (y : ℚ), 1⟩

/-- Python exceptions raised on the embedded code paths.  The spec groups
the validation-time ValueError and TypeError under its ConfigurationError
taxonomy (spec section 7); traceError stands for an exception raised by
the tracing collaborator. -/
inductive PyError where
  | valueError
  | typeError
  | zeroDivisionError
  | traceError
deriving DecidableEq

/-- Decidable equality for Except values, used to evaluate the embedded
fallible steps on concrete inputs. -/
def Except.decEq {ε α : Type} [DecidableEq ε] [DecidableEq α] :
    (a b : Except ε α) → Decidable (a = b)
  | .error x, .error y =>
      if h : x = y then .isTrue (by rw [h])
      else .isFalse (by intro hc; cases hc; exact h rfl)
  | .error _, .ok _ => .isFalse (by intro hc; cases hc)
  | .ok _, .error _ => .isFalse (by intro hc; cases hc)
  | .ok x, .ok y =>
      if h : x = y then .isTrue (by rw [h])
      else .isFalse (by intro hc; cases hc; exact h rfl)

instance {ε α : Type} [DecidableEq ε] [DecidableEq α] :
    DecidableEq (Except ε α) := Except.decEq

/-- An image buffer: pixel (y, x) to a 3-component value, modelling
numpy zeros((height, width, 3)). -/
def Framebuf := (ℤ × ℤ) → Fin 3 → ℚ

/-- The all-zero buffer. -/
def zeroFrame : Framebuf := fun _ _ => 0

/-- The two buffers mutated by observe: the local xyz_frame accumulator
(line 93) and the displayable self.frame (line 94). -/
structure RenderState where
  xyz_frame : Framebuf
  frame : Framebuf

/-- Python range(n) over an int bound: empty when n is not positive. -/
def pyRange (n : ℤ) : List ℤ := (List.range n.toNat).map Int.ofNat

/-- The ray-construction loop of observe (pinholecamera.py lines
133-142): the carried lower_wavelength starts at min_wavelength, each
upper_wavelength is computed independently as
`min_wavelength + delta_wavelength * (index + 1)`, and the carried lower
becomes the previous upper. -/
def buildChannelsGo (min_wavelength delta_wavelength : ℚ) :
    ℚ → List ℤ → List (ℚ × ℚ)
  | _, [] => []
  | lower_wavelength, index :: rest =>
      let upper_wavelength := min_wavelength + delta_wavelength * ((index : ℚ) + 1)
      (lower_wavelength, upper_wavelength) ::
        buildChannelsGo min_wavelength delta_wavelength upper_wavelength rest

/-- The wavelength partition step of observe (pinholecamera.py lines
130-142).  Python raises ZeroDivisionError at line 131 when rays = 0;
there is no other validation anywhere on this path. -/
def buildChannels (min_wavelength max_wavelength : ℚ) (rays : ℤ) :
    Except PyError (List (ℚ × ℚ)) :=
  if rays = 0 then .error .zeroDivisionError
  else
    let delta_wavelength := (max_wavelength - min_wavelength) / (rays : ℚ)
    .ok (buildChannelsGo min_wavelength delta_wavelength min_wavelength
      (pyRange rays))

/-- The pixels property setter (pinholecamera.py lines 68-75): only the
tuple length is validated; the pixel counts themselves are not. -/
def pixels_setter (pixels : List ℤ) : Except PyError (List ℤ) :=
  if pixels.length ≠ 2 then .error .valueError else .ok pixels

/-- The fov property setter (pinholecamera.py lines 82-89): rejects any
field of view that is not strictly positive. -/
def fov_setter (fov : ℚ) : Except PyError ℚ :=
  if fov ≤ 0 then .error .valueError else .ok fov

/-- Type of the tracing collaborator `ray.trace(world)`: it receives the
camera-space pixel ray direction (the world placement transform and the
normalisation of lines 181-185 are injective relabellings applied by
external geometric collaborators, absorbed into the abstract tracer),
the wavelength bounds, the sample count and the maximum depth of the
current ray template, and returns the spectral radiance samples or
propagates an exception. -/
def Tracer : Type :=
  Vec3 → ℚ → ℚ → ℤ → ℤ → Except PyError (List ℚ)

/-- Modelled from the spec: the colour collaborators resample_ciexyz and
spectrum_to_ciexyz (raysect.optical.colour) are not under src/.  Spec
section 6 describes spectrum_to_ciexyz as taking a spectral sample array
and the resampled colour-matching table and returning tristimulus values,
and spec section 9 records the assumption that the conversion treats each
global sample index independently; accordingly it is modelled as the
integration of the sample array against the per-index table entries. -/
def spectrum_to_ciexyz (total_samples : ℕ) (samples : ℕ → ℚ)
    (table : ℕ → Fin 3 → ℚ) : Fin 3 → ℚ :=
  fun c => ∑ i in Finset.range total_samples, samples i * table i c

/-- The per-pixel full-range spectral buffer (pinholecamera.py lines
188-194): `Spectrum(...)` starts with all samples zero and the numpy
slice assignment writes the traced samples at indices
lower_index <= i < lower_index + num_samples. -/
def sliceBuffer (samples : List ℚ) (lower_index num_samples : ℕ) : ℕ → ℚ :=
  fun i =>
    if lower_index ≤ i ∧ i < lower_index + num_samples then
      samples.getD (i - lower_index) 0
    else 0

/-- Body of the innermost pixel loop of observe (pinholecamera.py lines
179-206), with the time-throttled statistics printing and display refresh
(pure I/O) omitted.  On a tracer exception the current buffers are
carried inside the error, mirroring that the Python self.frame retains
its contents when observe raises; the numpy slice assignment of line 194
raises ValueError when the returned sample array has the wrong length. -/
def pixelStep (tracer : Tracer) (table : ℕ → Fin 3 → ℚ)
    (ciexyz_to_srgb : (Fin 3 → ℚ) → Fin 3 → ℚ) (ip : ImagePlane)
    (chan : ℚ × ℚ) (num_samples ray_max_depth : ℤ)
    (lower_index total_samples : ℕ) (st : RenderState) (y x : ℤ) :
    Except (PyError × RenderState) RenderState :=
  let direction := rayDirection ip x y
  match tracer direction chan.1 chan.2 num_samples ray_max_depth with
  | .error e => .error (e, st)
  | .ok sample =>
      if sample.length ≠ num_samples.toNat then .error (.valueError, st)
      else
        let buffer := sliceBuffer sample lower_index num_samples.toNat
        let xyz := spectrum_to_ciexyz total_samples buffer table
        let new_xyz : Framebuf :=
          Function.update st.xyz_frame (y, x)
            (fun c => st.xyz_frame (y, x) c + xyz c)
        let new_frame : Framebuf :=
          Function.update st.frame (y, x) (ciexyz_to_srgb (new_xyz (y, x)))
        .ok ⟨new_xyz, new_frame⟩

/-- The PinholeCamera state relevant to observe (pinholecamera.py lines
42-60).  root_is_world models whether self.root is a World instance
(line 96); frame is the displayable buffer left by the constructor or by
an earlier render. -/
structure Camera where
  pixels : ℤ × ℤ
  fov : ℚ
  rays : ℤ
  spectral_samples : ℤ
  min_wavelength : ℚ
  max_wavelength : ℚ
  ray_max_depth : ℤ
  root_is_world : Bool
  frame : Framebuf

/-- PinholeCamera.observe (pinholecamera.py lines 91-222).
`tan_half_fov_of` abstracts `fov ↦ tan(pi / 180 * 0.5 * fov)` (line 107),
resample_ciexyz the colour-matching resampling collaborator (line 125)
and ciexyz_to_srgb the display mapping collaborator (line 206).  The
carried lower_index of the source always equals
spectral_samples * channel_index, since line 160 sets
upper_index = spectral_samples * (index + 1) and the carried value is
the previous upper_index, starting from 0. -/
def observe (tracer : Tracer) (tan_half_fov_of : ℚ → ℚ)
    (resample_ciexyz : ℚ → ℚ → ℤ → ℕ → Fin 3 → ℚ)
    (ciexyz_to_srgb : (Fin 3 → ℚ) → Fin 3 → ℚ) (cam : Camera) :
    Except (PyError × RenderState) RenderState :=
  -- lines 93-94: both buffers are reset to zero before anything else
  let st0 : RenderState := ⟨zeroFrame, zeroFrame⟩
  -- line 96: scene-root check, before any tracing work
  if cam.root_is_world = false then .error (.typeError, st0)
  else
    let ip := imagePlane cam.pixels (tan_half_fov_of cam.fov)
    -- line 123
    let total_samples := cam.rays * cam.spectral_samples
    -- line 125
    let table := resample_ciexyz cam.min_wavelength cam.max_wavelength
      total_samples
    -- lines 130-142
    match buildChannels cam.min_wavelength cam.max_wavelength cam.rays with
    | .error e => .error (e, st0)
    | .ok chans =>
        -- lines 157-214: channel, row and column loops
        chans.enum.foldlM
          (fun st ichan =>
            (pyRange cam.pixels.2).foldlM
              (fun st y =>
                (pyRange cam.pixels.1).foldlM
                  (fun st x =>
                    pixelStep tracer table ciexyz_to_srgb ip ichan.2
                      cam.spectral_samples cam.ray_max_depth
                      (cam.spectral_samples.toNat * ichan.1)
                      total_samples.toNat st y x)
                  st)
              st)
          st0

/-- Modelled from the spec: spec section 6 requires the tracing
collaborator to return a spectral radiance sample array of the requested
length.  A spectrally consistent scene is one whose sample k is a fixed
function g of the ray direction and of the k-th equal wavelength sub-bin
of the ray wavelength interval — the same grid the renderer itself uses
to slice the global range into channels. -/
def binSamples (g : Vec3 → ℚ → ℚ → ℚ) (d : Vec3) (l u : ℚ) (n : ℤ) :
    List ℚ :=
  (List.range n.toNat).map fun (k : ℕ) =>
    g d (l + (u - l) * (k : ℚ) / (n.toNat : ℚ))
        (l + (u - l) * ((k : ℚ) + 1) / (n.toNat : ℚ))

/-- The tracer of a spectrally consistent scene: never raises and always
returns the requested number of samples. -/
def binTracer (g : Vec3 → ℚ → ℚ → ℚ) : Tracer :=
  fun d l u n _ => .ok (binSamples g d l u n)

/-- The flattened raster-order work list of observe: one item per
(channel, row, column), channels outermost. -/
def workItems (chans : List (ℚ × ℚ)) (pixels : ℤ × ℤ) :
    List ((ℕ × (ℚ × ℚ)) × ℤ × ℤ) :=
  chans.enum.flatMap fun ichan =>
    (pyRange pixels.2).flatMap fun y =>
      (pyRange pixels.1).map fun x => (ichan, y, x)

/-- One unit of work of the flattened render loop. -/
def workStep (tracer : Tracer) (table : ℕ → Fin 3 → ℚ)
    (ciexyz_to_srgb : (Fin 3 → ℚ) → Fin 3 → ℚ) (ip : ImagePlane)
    (num_samples ray_max_depth : ℤ) (total_samples : ℕ)
    (st : RenderState) (it : (ℕ × (ℚ × ℚ)) × ℤ × ℤ) :
    Except (PyError × RenderState) RenderState :=
  pixelStep tracer table ciexyz_to_srgb ip it.1.2 num_samples ray_max_depth
    (num_samples.toNat * it.1.1) total_samples st it.2.1 it.2.2

/-- The tristimulus contribution of one channel at one pixel under the
spectrally consistent tracer (proof support, equal by computation to the
xyz value of pixelStep). -/
def pixelXYZ (g : Vec3 → ℚ → ℚ → ℚ) (table : ℕ → Fin 3 → ℚ)
    (ip : ImagePlane) (chan : ℚ × ℚ) (num_samples : ℤ)
    (lower_index total_samples : ℕ) (y x : ℤ) : Fin 3 → ℚ :=
  spectrum_to_ciexyz total_samples
    (sliceBuffer (binSamples g (rayDirection ip x y) chan.1 chan.2 num_samples)
      lower_index num_samples.toNat) table

/-- The pure state transformer realised by pixelStep under the spectrally
consistent tracer (proof support). -/
def applyPixel (g : Vec3 → ℚ → ℚ → ℚ) (table : ℕ → Fin 3 → ℚ)
    (ciexyz_to_srgb : (Fin 3 → ℚ) → Fin 3 → ℚ) (ip : ImagePlane)
    (chan : ℚ × ℚ) (num_samples : ℤ) (lower_index total_samples : ℕ)
    (st : RenderState) (y x : ℤ) : RenderState :=
  let xyz := pixelXYZ g table ip chan num_samples lower_index total_samples y x
  ⟨Function.update st.xyz_frame (y, x) (fun c => st.xyz_frame (y, x) c + xyz c),
   Function.update st.frame (y, x)
     (ciexyz_to_srgb (fun c => st.xyz_frame (y, x) c + xyz c))⟩

/-- The stored state of the debug Light material (debug.py lines 51-59):
light_direction holds the normalised constructor argument (the
`normalise()` call is an external geometric operation) and intensity is
clamped at construction; the default emission spectrum (d65_white) is
external data, abstracted with the rest of the spectrum. -/
structure LightMaterial where
  light_direction : Vec3
  intensity : ℚ

/-- Light.__init__ (debug.py lines 51-54): stores the light direction and
clamps the intensity to max(0, intensity). -/
def Light.init (light_direction : Vec3) (intensity : ℚ) : LightMaterial :=
  ⟨light_direction, max 0 intensity⟩

/-- Light.evaluate_surface (debug.py lines 61-67).  to_local is the
(abstract) vector transform of the hit context applied to the stored
light direction; emission i is sample i of
self.spectrum.sample_multiple(ray.min_wavelength, ray.max_wavelength,
ray.num_samples); ray.new_spectrum() yields num_samples zeros. -/
def Light.evaluate_surface (m : LightMaterial) (to_local : Vec3 → Vec3)
    (normal : Vec3) (num_samples : ℕ) (emission : ℕ → ℚ) : List ℚ :=
  let spectrum := List.replicate num_samples (0 : ℚ)
  if m.intensity ≠ 0 then
    let diffuse_intensity :=
      m.intensity * max 0 (-((to_local m.light_direction).dot normal))
    (List.range num_samples).map fun i => diffuse_intensity * emission i
  else spectrum

/-- A concrete camera configuration for evaluating theorems on explicit
inputs: the constructor defaults of pinholecamera.py lines 42-60, not
attached to a World. -/
def exampleCameraDetached : Camera :=
  { pixels := (640, 480), fov := 40, rays := 1, spectral_samples := 20,
    min_wavelength := 375, max_wavelength := 740, ray_max_depth := 15,
    root_is_world := false, frame := zeroFrame }

/-! ## Lemmas about the wavelength partition -/

theorem pyRange_eq (n : ℤ) :
    pyRange n = (List.range n.toNat).map (fun i : ℕ => (i : ℤ)) := rfl

theorem buildChannelsGo_closed (minw d : ℚ) (m : ℕ) :
    ∀ j : ℕ,
      buildChannelsGo minw d (minw + d * (j : ℚ))
          ((List.range m).map fun i : ℕ => ((j + i : ℕ) : ℤ)) =
        (List.range m).map fun i : ℕ =>
          (minw + d * ((j + i : ℕ) : ℚ),
           minw + d * (((j + i : ℕ) : ℚ) + 1)) := by
  induction m with
  | zero => intro j; simp [buildChannelsGo]
  | succ m ih =>
      intro j
      rw [List.range_succ_eq_map, List.map_cons, List.map_cons,
        List.map_map, List.map_map]
      rw [buildChannelsGo]
      have hlist : ((fun i : ℕ => ((j + i : ℕ) : ℤ)) ∘ Nat.succ) =
          (fun i : ℕ => (((j + 1) + i : ℕ) : ℤ)) := by
        funext i
        simp only [Function.comp]
        norm_cast
        omega
      have hupper : minw + d * ((((j + 0 : ℕ) : ℤ) : ℚ) + 1) =
          minw + d * (((j + 1 : ℕ)) : ℚ) := by
        push_cast
        ring
      have htailfun : ((fun i : ℕ =>
            (minw + d * ((j + i : ℕ) : ℚ),
             minw + d * (((j + i : ℕ) : ℚ) + 1))) ∘ Nat.succ) =
          (fun i : ℕ =>
            (minw + d * (((j + 1) + i : ℕ) : ℚ),
             minw + d * ((((j + 1) + i : ℕ) : ℚ) + 1))) := by
        funext i
        simp only [Function.comp, Prod.mk.injEq]
        constructor <;> · push_cast; ring
      simp only [List.cons.injEq, Prod.mk.injEq]
      refine ⟨⟨?_, ?_⟩, ?_⟩
      · push_cast; ring
      · push_cast; ring
      · rw [hlist, hupper, htailfun]
        exact ih (j + 1)

theorem buildChannels_closed (minw maxw : ℚ) (rays : ℤ) (hr : rays ≠ 0) :
    buildChannels minw maxw rays =
      .ok ((List.range rays.toNat).map fun k : ℕ =>
        (minw + (maxw - minw) / (rays : ℚ) * (k : ℚ),
         minw + (maxw - minw) / (rays : ℚ) * ((k : ℚ) + 1))) := by
  rw [buildChannels, if_neg hr]
  have h0 : minw = minw + (maxw - minw) / (rays : ℚ) * ((0 : ℕ) : ℚ) := by
    push_cast
    ring
  have hlist : pyRange rays =
      (List.range rays.toNat).map fun i : ℕ => ((0 + i : ℕ) : ℤ) := by
    rw [pyRange_eq]
    simp
  simp only [Except.ok.injEq]
  calc buildChannelsGo minw ((maxw - minw) / (rays : ℚ)) minw (pyRange rays)
      = buildChannelsGo minw ((maxw - minw) / (rays : ℚ))
          (minw + (maxw - minw) / (rays : ℚ) * ((0 : ℕ) : ℚ))
          ((List.range rays.toNat).map fun i : ℕ => ((0 + i : ℕ) : ℤ)) := by
        rw [← h0, ← hlist]
    _ = (List.range rays.toNat).map fun k : ℕ =>
          (minw + (maxw - minw) / (rays : ℚ) * (k : ℚ),
           minw + (maxw - minw) / (rays : ℚ) * ((k : ℚ) + 1)) := by
        rw [buildChannelsGo_closed]
        simp

theorem getD_map_range {α : Type} (f : ℕ → α) (dflt : α) (n k : ℕ) (hk : k < n) :
    ((List.range n).map f).getD k dflt = f k := by
  simp [List.getD_eq_getElem?_getD, List.getElem?_map, List.getElem?_range, hk]

/-- C1: for min_wavelength < max_wavelength and channel_count (= rays) at
least 1, the wavelength partition built at the start of observe produces
exactly rays sub-intervals, given in closed form, contiguous (each lower
bound equals the previous upper bound), of equal width
(max - min) / rays, each non-degenerate, ordered ascending, starting at
min_wavelength, ending exactly at max_wavelength, with union exactly
[min_wavelength, max_wavelength]. -/
theorem claim_C1_partition (minw maxw : ℚ) (rays : ℤ)
    (hw : minw < maxw) (hr : 1 ≤ rays) :
    ∃ L : List (ℚ × ℚ),
      buildChannels minw maxw rays = .ok L ∧
      L.length = rays.toNat ∧
      (∀ k, k < L.length → L.getD k (0, 0) =
        (minw + (maxw - minw) / (rays : ℚ) * (k : ℚ),
         minw + (maxw - minw) / (rays : ℚ) * ((k : ℚ) + 1))) ∧
      (∀ k, k < L.length →
        (L.getD k (0, 0)).2 - (L.getD k (0, 0)).1 = (maxw - minw) / (rays : ℚ)) ∧
      (∀ k, k + 1 < L.length →
        (L.getD (k + 1) (0, 0)).1 = (L.getD k (0, 0)).2) ∧
      (∀ k, k < L.length → (L.getD k (0, 0)).1 < (L.getD k (0, 0)).2) ∧
      (∀ j k, j < k → k < L.length →
        (L.getD j (0, 0)).1 < (L.getD k (0, 0)).1) ∧
      (L.getD 0 (0, 0)).1 = minw ∧
      (L.getD (L.length - 1) (0, 0)).2 = maxw ∧
      (∀ w : ℚ, (minw ≤ w ∧ w ≤ maxw) ↔
        ∃ k, k < L.length ∧ (L.getD k (0, 0)).1 ≤ w ∧ w ≤ (L.getD k (0, 0)).2) := by
  have hr0 : rays ≠ 0 := by omega
  have hrQpos : (0 : ℚ) < (rays : ℚ) := by exact_mod_cast (by omega : (0 : ℤ) < rays)
  set d : ℚ := (maxw - minw) / (rays : ℚ) with hd_def
  have hd : 0 < d := div_pos (by linarith) hrQpos
  set N : ℕ := rays.toNat with hN_def
  have hN1 : 1 ≤ N := by omega
  have hNcast : (N : ℚ) = (rays : ℚ) := by
    have : ((N : ℤ) : ℚ) = (rays : ℚ) := by
      rw [hN_def, Int.toNat_of_nonneg (by omega)]
    exact_mod_cast this
  have hdN : d * (N : ℚ) = maxw - minw := by
    rw [hNcast, hd_def]
    field_simp
  set F : ℕ → ℚ × ℚ :=
    fun k => (minw + d * (k : ℚ), minw + d * ((k : ℚ) + 1)) with hF_def
  refine ⟨(List.range N).map F, buildChannels_closed minw maxw rays hr0, ?_, ?_,
    ?_, ?_, ?_, ?_, ?_, ?_, ?_⟩
  · simp
  · intro k hk
    simp only [List.length_map, List.length_range] at hk
    rw [getD_map_range F (0, 0) N k hk]
  · intro k hk
    simp only [List.length_map, List.length_range] at hk
    rw [getD_map_range F (0, 0) N k hk, hF_def]
    ring
  · intro k hk
    simp only [List.length_map, List.length_range] at hk
    rw [getD_map_range F (0, 0) N (k + 1) hk,
      getD_map_range F (0, 0) N k (by omega), hF_def]
    push_cast
    ring
  · intro k hk
    simp only [List.length_map, List.length_range] at hk
    rw [getD_map_range F (0, 0) N k hk, hF_def]
    simp only
    nlinarith [hd]
  · intro j k hjk hk
    simp only [List.length_map, List.length_range] at hk
    rw [getD_map_range F (0, 0) N j (by omega),
      getD_map_range F (0, 0) N k hk, hF_def]
    simp only
    have : (j : ℚ) < (k : ℚ) := by exact_mod_cast hjk
    nlinarith [hd]
  · rw [getD_map_range F (0, 0) N 0 (by omega), hF_def]
    simp
  · simp only [List.length_map, List.length_range]
    rw [getD_map_range F (0, 0) N (N - 1) (by omega), hF_def]
    simp only
    have : ((N - 1 : ℕ) : ℚ) + 1 = (N : ℚ) := by
      have : (1 : ℕ) ≤ N := hN1
      push_cast [Nat.cast_sub this]
      ring
    rw [this]
    linarith [hdN]
  · intro w
    constructor
    · rintro ⟨hlo, hhi⟩
      have ht0 : 0 ≤ (w - minw) / d := div_nonneg (by linarith) hd.le
      have htN : (w - minw) / d ≤ (N : ℚ) := by
        rw [div_le_iff₀ hd]
        nlinarith [hdN]
      set t : ℚ := (w - minw) / d with ht_def
      have hfloor0 : (0 : ℤ) ≤ ⌊t⌋ := Int.floor_nonneg.mpr ht0
      refine ⟨min (N - 1) (⌊t⌋.toNat), ?_, ?_, ?_⟩
      · simp only [List.length_map, List.length_range]
        omega
      · rw [getD_map_range F (0, 0) N _ (by omega), hF_def]
        simp only
        have hk_le : ((min (N - 1) ⌊t⌋.toNat : ℕ) : ℚ) ≤ t := by
          have h1 : (min (N - 1) ⌊t⌋.toNat : ℕ) ≤ ⌊t⌋.toNat := min_le_right _ _
          have h2 : ((⌊t⌋.toNat : ℕ) : ℚ) ≤ t := by
            have : ((⌊t⌋.toNat : ℤ) : ℚ) = ((⌊t⌋ : ℤ) : ℚ) := by
              rw [Int.toNat_of_nonneg hfloor0]
            calc ((⌊t⌋.toNat : ℕ) : ℚ) = ((⌊t⌋.toNat : ℤ) : ℚ) := by push_cast; ring
              _ = ((⌊t⌋ : ℤ) : ℚ) := this
              _ ≤ t := Int.floor_le t
          calc ((min (N - 1) ⌊t⌋.toNat : ℕ) : ℚ) ≤ ((⌊t⌋.toNat : ℕ) : ℚ) := by
                exact_mod_cast h1
            _ ≤ t := h2
        have : d * ((min (N - 1) ⌊t⌋.toNat : ℕ) : ℚ) ≤ d * t :=
          mul_le_mul_of_nonneg_left hk_le hd.le
        have hdt : d * t = w - minw := by
          rw [ht_def]
          field_simp
        nlinarith
      · rw [getD_map_range F (0, 0) N _ (by omega), hF_def]
        simp only
        have hk_ge : t ≤ ((min (N - 1) ⌊t⌋.toNat : ℕ) : ℚ) + 1 := by
          by_cases hcase : ⌊t⌋.toNat ≤ N - 1
          · rw [min_eq_right hcase]
            have h1 : t < ((⌊t⌋ : ℤ) : ℚ) + 1 := Int.lt_floor_add_one t
            have h2 : ((⌊t⌋ : ℤ) : ℚ) ≤ ((⌊t⌋.toNat : ℕ) : ℚ) := by
              have := Int.self_le_toNat ⌊t⌋
              exact_mod_cast this
            linarith
          · rw [min_eq_left (by omega)]
            have : ((N - 1 : ℕ) : ℚ) + 1 = (N : ℚ) := by
              push_cast [Nat.cast_sub hN1]
              ring
            rw [this]
            linarith [htN]
        have : d * t ≤ d * (((min (N - 1) ⌊t⌋.toNat : ℕ) : ℚ) + 1) :=
          mul_le_mul_of_nonneg_left hk_ge hd.le
        have hdt : d * t = w - minw := by
          rw [ht_def]
          field_simp
        nlinarith
    · rintro ⟨k, hk, hlo, hhi⟩
      simp only [List.length_map, List.length_range] at hk
      rw [getD_map_range F (0, 0) N k hk, hF_def] at hlo hhi
      simp only at hlo hhi
      constructor
      · nlinarith [hd.le, (by positivity : (0 : ℚ) ≤ (k : ℚ))]
      · have hk1 : ((k : ℚ) + 1) ≤ (N : ℚ) := by
          have : (k + 1 : ℕ) ≤ N := hk
          exact_mod_cast this
        nlinarith [hd.le, hdN]

/-- C1 witness: the default wavelength range 375-740 split into 2
channels satisfies the hypotheses and the partition exists. -/
theorem claim_C1_partition_witness :
    ((375 : ℚ) < 740) ∧ ((1 : ℤ) ≤ 2) ∧
    ∃ L, buildChannels 375 740 2 = .ok L ∧ L.length = (2 : ℤ).toNat := by
  refine ⟨by norm_num, by decide, ?_⟩
  obtain ⟨L, h1, h2, -⟩ := claim_C1_partition 375 740 2 (by norm_num) (by decide)
  exact ⟨L, h1, h2⟩

/-- C2 counterexample: with min_wavelength = 5 >= max_wavelength = 3 and
channel_count = 2 the partition step does NOT fail: it silently returns a
degenerate descending partition, refuting the claim that every such input
fails with ConfigurationError. -/
theorem claim_C2_counterexample :
    buildChannels 5 3 2 = .ok [(5, 4), (4, 3)] := by
  rw [buildChannels, if_neg (by decide)]
  norm_num [pyRange, buildChannelsGo, List.range_succ]

/-- C2 amended: the code performs no validation of channel_count or of the
wavelength ordering: channel_count = 0 raises ZeroDivisionError at the
delta_wavelength division (not ConfigurationError); channel_count < 0
silently yields an empty partition; min_wavelength >= max_wavelength
silently yields a partition of degenerate (non-increasing) intervals. -/
theorem claim_C2_no_validation :
    (∀ l u : ℚ, buildChannels l u 0 = .error .zeroDivisionError) ∧
    (∀ (l u : ℚ) (r : ℤ), r < 0 → buildChannels l u r = .ok []) ∧
    (∀ (l u : ℚ) (r : ℤ), u ≤ l → 1 ≤ r →
      ∃ L, buildChannels l u r = .ok L ∧ L.length = r.toNat ∧
        ∀ k, k < L.length → (L.getD k (0, 0)).2 ≤ (L.getD k (0, 0)).1) := by
  refine ⟨?_, ?_, ?_⟩
  · intro l u
    simp [buildChannels]
  · intro l u r hr
    rw [buildChannels, if_neg (by omega)]
    have h0 : r.toNat = 0 := by omega
    simp [pyRange, h0, buildChannelsGo]
  · intro l u r hul hr
    rw [buildChannels_closed l u r (by omega)]
    refine ⟨_, rfl, by simp, ?_⟩
    intro k hk
    simp only [List.length_map, List.length_range] at hk
    rw [getD_map_range _ (0, 0) _ k hk]
    simp only
    have hrQ : (0 : ℚ) < (r : ℚ) := by exact_mod_cast (by omega : (0 : ℤ) < r)
    have hd : (u - l) / (r : ℚ) ≤ 0 := by
      apply div_nonpos_of_nonpos_of_nonneg
      · linarith
      · positivity
    nlinarith

/-- C2 witness for the amended statement, at concrete inputs. -/
theorem claim_C2_no_validation_witness :
    buildChannels 0 1 0 = .error .zeroDivisionError ∧
    ((-1 : ℤ) < 0 ∧ buildChannels 0 1 (-1) = .ok []) ∧
    ((3 : ℚ) ≤ 5 ∧ (1 : ℤ) ≤ 2 ∧
      ∃ L, buildChannels 5 3 2 = .ok L ∧ L.length = (2 : ℤ).toNat ∧
        ∀ k, k < L.length → (L.getD k (0, 0)).2 ≤ (L.getD k (0, 0)).1) :=
  ⟨claim_C2_no_validation.1 0 1,
   ⟨by decide, claim_C2_no_validation.2.1 0 1 (-1) (by decide)⟩,
   ⟨by norm_num, by decide, claim_C2_no_validation.2.2 5 3 2 (by norm_num) (by decide)⟩⟩

/-- C3 counterexample: pixels = (0, 480) passes the pixels setter with no
error (only the tuple length is checked), refuting the claim that it
raises ConfigurationError at validation time. -/
theorem claim_C3_counterexample :
    pixels_setter [0, 480] = .ok [0, 480] := by decide

/-- C3 amended: fov = 0 (and any fov <= 0) raises ValueError at
validation time, before observe can run, and fov must be strictly
positive to pass; however the pixel setter only requires a 2-tuple, so
pixels = (0, 480) is accepted and width > 0, height > 0 is not
enforced. -/
theorem claim_C3_validation :
    fov_setter 0 = .error .valueError ∧
    (∀ q : ℚ, q ≤ 0 → fov_setter q = .error .valueError) ∧
    (∀ q : ℚ, 0 < q → fov_setter q = .ok q) ∧
    (∀ p : List ℤ, p.length = 2 → pixels_setter p = .ok p) := by
  refine ⟨by simp [fov_setter], ?_, ?_, ?_⟩
  · intro q hq
    rw [fov_setter, if_pos hq]
  · intro q hq
    rw [fov_setter, if_neg (not_le.mpr hq)]
  · intro p hp
    rw [pixels_setter, if_neg (by omega)]

/-- C3 witness for the amended statement, at concrete inputs. -/
theorem claim_C3_validation_witness :
    ((-1 : ℚ) ≤ 0 ∧ fov_setter (-1) = .error .valueError) ∧
    ((0 : ℚ) < 40 ∧ fov_setter 40 = .ok 40) ∧
    (([0, 480] : List ℤ).length = 2 ∧ pixels_setter [0, 480] = .ok [0, 480]) :=
  ⟨⟨by norm_num, claim_C3_validation.2.1 (-1) (by norm_num)⟩,
   ⟨by norm_num, claim_C3_validation.2.2.1 40 (by norm_num)⟩,
   ⟨by decide, claim_C3_validation.2.2.2 [0, 480] (by decide)⟩⟩

/-! ## Ray generation geometry (C5, C6) -/

/-- C5: for any value t of tan(pi / 180 * 0.5 * fov) (hence for every
fov), when width = height = 1 the single pixel (0, 0) has camera-space
ray direction exactly (0, 0, 1): the unnormalised direction is already
(0, 0, 1) and the unique unit-length positive rescaling is (0, 0, 1)
itself. -/
theorem claim_C5_on_axis (t : ℚ) :
    rayDirection (imagePlane (1, 1) t) 0 0 = ⟨0, 0, 1⟩ ∧
    ∀ w : Vec3, IsUnitScaling (rayDirection (imagePlane (1, 1) t) 0 0) w →
      w = ⟨0, 0, 1⟩ := by
  have hip : imagePlane (1, 1) t = ⟨0, 0, 0⟩ := by
    rw [imagePlane]
    norm_num
  have hdir : rayDirection (imagePlane (1, 1) t) 0 0 = ⟨0, 0, 1⟩ := by
    rw [hip, rayDirection]
    norm_num
  refine ⟨hdir, ?_⟩
  intro w hw
  rw [hdir] at hw
  obtain ⟨⟨c, hc, hwc⟩, hnorm⟩ := hw
  subst hwc
  simp only [Vec3.normSq] at hnorm
  have hc1 : c = 1 := by nlinarith
  subst hc1
  norm_num

/-- C5 witness: at t = 1 the single-pixel direction is (0, 0, 1), the
unit scaling relation is satisfiable there, and the normalised direction
is (0, 0, 1). -/
theorem claim_C5_on_axis_witness :
    rayDirection (imagePlane (1, 1) 1) 0 0 = ⟨0, 0, 1⟩ ∧
    IsUnitScaling (rayDirection (imagePlane (1, 1) 1) 0 0) ⟨0, 0, 1⟩ ∧
    (⟨0, 0, 1⟩ : Vec3) = ⟨0, 0, 1⟩ := by
  have h := claim_C5_on_axis 1
  have hu : IsUnitScaling (rayDirection (imagePlane (1, 1) 1) 0 0)
      ⟨0, 0, 1⟩ := by
    rw [h.1]
    exact ⟨⟨1, one_pos, by norm_num⟩, by norm_num [Vec3.normSq]⟩
  exact ⟨h.1, hu, h.2 ⟨0, 0, 1⟩ hu⟩

/-- C6 counterexample: the claimed midplane symmetry fails.  For every
positive value t of tan(pi / 180 * 0.5 * fov) — hence in particular for
the value belonging to fov = 40 — the normalised x-components of the
directions generated for pixel (0, 0) and pixel (639, 0) of a 640x480
frame do NOT have equal magnitude: with image_start_x = 0.5 * 640 * delta
the two unnormalised x-components are 320 * delta and -319 * delta.
Stated as the negation of the claim, universally quantified over t. -/
theorem claim_C6_counterexample :
    ¬ ∀ t : ℚ, 0 < t →
      xCompSqOfUnit (rayDirection (imagePlane (640, 480) t) 0 0) =
        xCompSqOfUnit (rayDirection (imagePlane (640, 480) t) 639 0) := by
  intro h
  have h1 := h 1 one_pos
  rw [show imagePlane (640, 480) 1 = ⟨2/639, 640/639, 480/639⟩ from by
    rw [imagePlane]; norm_num] at h1
  norm_num [rayDirection, xCompSqOfUnit, Vec3.normSq] at h1

/-- C6 amended: for a 640x480 frame and any positive tan value t of the
half field of view, the directions for pixel (0, 0) and pixel (639, 0)
have x-components of opposite sign but UNEQUAL magnitude, in the exact
ratio 320 : 319 (319 * x0 + 320 * x639 = 0); the squares of the
normalised x-components differ; and the normalised x-component magnitude
is strictly decreasing in the column index up to column 320 and strictly
increasing from column 320 on (the scan is symmetric about column 320,
half a pixel away from the frame centre 319.5). -/
theorem claim_C6_near_symmetry (t : ℚ) (ht : 0 < t) :
    0 < (rayDirection (imagePlane (640, 480) t) 0 0).x ∧
    (rayDirection (imagePlane (640, 480) t) 639 0).x < 0 ∧
    319 * (rayDirection (imagePlane (640, 480) t) 0 0).x
      + 320 * (rayDirection (imagePlane (640, 480) t) 639 0).x = 0 ∧
    xCompSqOfUnit (rayDirection (imagePlane (640, 480) t) 639 0) <
      xCompSqOfUnit (rayDirection (imagePlane (640, 480) t) 0 0) ∧
    (∀ x1 x2 : ℤ, 0 ≤ x1 → x1 < x2 → x2 ≤ 320 →
      xCompSqOfUnit (rayDirection (imagePlane (640, 480) t) x2 0) <
        xCompSqOfUnit (rayDirection (imagePlane (640, 480) t) x1 0)) ∧
    (∀ x1 x2 : ℤ, 320 ≤ x1 → x1 < x2 → x2 ≤ 639 →
      xCompSqOfUnit (rayDirection (imagePlane (640, 480) t) x1 0) <
        xCompSqOfUnit (rayDirection (imagePlane (640, 480) t) x2 0)) := by
  have hip : imagePlane (640, 480) t =
      ⟨2 * t / 639, 320 * (2 * t / 639), 240 * (2 * t / 639)⟩ := by
    rw [imagePlane]
    norm_num
  have hx : ∀ x : ℤ, (rayDirection (imagePlane (640, 480) t) x 0).x
      = 2 * t / 639 * (320 - (x : ℚ)) := by
    intro x
    rw [hip, rayDirection]
    simp only
    ring
  have hsq : ∀ x : ℤ, xCompSqOfUnit (rayDirection (imagePlane (640, 480) t) x 0)
      = (2 * t / 639 * (320 - (x : ℚ))) ^ 2
        / ((2 * t / 639 * (320 - (x : ℚ))) ^ 2 + ((240 * (2 * t / 639)) ^ 2 + 1)) := by
    intro x
    rw [xCompSqOfUnit, Vec3.normSq, hip, rayDirection]
    simp only
    congr 1
    · ring
    · ring
  have hkey : ∀ a b s : ℚ, 0 < s → a ^ 2 < b ^ 2 →
      a ^ 2 / (a ^ 2 + s) < b ^ 2 / (b ^ 2 + s) := by
    intro a b s hs hab
    rw [div_lt_div_iff₀ (by positivity) (by positivity)]
    nlinarith
  have hs_pos : 0 < (240 * (2 * t / 639)) ^ 2 + 1 := by positivity
  have hc_pos : 0 < 2 * t / 639 := by positivity
  have hmono : ∀ a b : ℚ, 0 ≤ a → a < b →
      (2 * t / 639 * a) ^ 2 < (2 * t / 639 * b) ^ 2 := by
    intro a b ha hab
    have h1 : a ^ 2 < b ^ 2 := by nlinarith
    have h2 : 0 < (2 * t / 639) ^ 2 * (b ^ 2 - a ^ 2) := by
      apply mul_pos (by positivity)
      linarith
    nlinarith
  refine ⟨?_, ?_, ?_, ?_, ?_, ?_⟩
  · rw [hx 0]
    norm_num
    positivity
  · rw [hx 639]
    nlinarith
  · rw [hx 0, hx 639]
    push_cast
    ring
  · rw [hsq 0, hsq 639]
    apply hkey _ _ _ hs_pos
    have := hmono 319 320 (by norm_num) (by norm_num)
    push_cast
    nlinarith
  · intro x1 x2 h0 h12 h320
    rw [hsq x1, hsq x2]
    apply hkey _ _ _ hs_pos
    have hq2 : (x1 : ℚ) < (x2 : ℚ) := by exact_mod_cast h12
    have hq3 : (x2 : ℚ) ≤ 320 := by exact_mod_cast h320
    exact hmono (320 - (x2 : ℚ)) (320 - (x1 : ℚ)) (by linarith) (by linarith)
  · intro x1 x2 h320 h12 h639
    rw [hsq x1, hsq x2]
    apply hkey _ _ _ hs_pos
    have hq1 : (320 : ℚ) ≤ (x1 : ℚ) := by exact_mod_cast h320
    have hq2 : (x1 : ℚ) < (x2 : ℚ) := by exact_mod_cast h12
    have := hmono ((x1 : ℚ) - 320) ((x2 : ℚ) - 320) (by linarith) (by linarith)
    nlinarith

/-- C6 witness for the amended statement, at t = 1. -/
theorem claim_C6_near_symmetry_witness :
    (0 : ℚ) < 1 ∧
    xCompSqOfUnit (rayDirection (imagePlane (640, 480) 1) 639 0) <
      xCompSqOfUnit (rayDirection (imagePlane (640, 480) 1) 0 0) :=
  ⟨one_pos, (claim_C6_near_symmetry 1 one_pos).2.2.2.1⟩

/-! ## Scene-attachment check and frame reset (C4, C9) -/

/-- C4: whenever the camera is not attached to a World scene root,
observe fails with the scene-attachment error (the TypeError of line 98,
grouped under ConfigurationError by the spec taxonomy) before any
tracing work: the result is the same for every tracer and every
collaborator, and the carried buffers are the freshly zeroed frames. -/
theorem claim_C4_root_check (tracer : Tracer) (tan_half_fov_of : ℚ → ℚ)
    (resample_ciexyz : ℚ → ℚ → ℤ → ℕ → Fin 3 → ℚ)
    (ciexyz_to_srgb : (Fin 3 → ℚ) → Fin 3 → ℚ) (cam : Camera)
    (h : cam.root_is_world = false) :
    observe tracer tan_half_fov_of resample_ciexyz ciexyz_to_srgb cam =
      .error (.typeError, ⟨zeroFrame, zeroFrame⟩) := by
  simp [observe, h]

/-- C4 witness: the default construction is not attached to a World and
observe fails with the attachment error for a concrete tracer. -/
theorem claim_C4_root_check_witness :
    exampleCameraDetached.root_is_world = false ∧
    observe (fun _ _ _ _ _ => .ok []) (fun _ => 1) (fun _ _ _ _ _ => 0)
        (fun v => v) exampleCameraDetached =
      .error (.typeError, ⟨zeroFrame, zeroFrame⟩) :=
  ⟨rfl, claim_C4_root_check _ _ _ _ exampleCameraDetached rfl⟩

/-- C9: observe resets both buffers to zero at its start (lines 93-94),
so its result is entirely independent of the displayable frame left by an
earlier render: two invocations differing only in the leftover frame
agree exactly, and a render that writes no pixel returns the zero
frames rather than the leftover one. -/
theorem claim_C9_reset (tracer : Tracer) (tan_half_fov_of : ℚ → ℚ)
    (resample_ciexyz : ℚ → ℚ → ℤ → ℕ → Fin 3 → ℚ)
    (ciexyz_to_srgb : (Fin 3 → ℚ) → Fin 3 → ℚ) (cam : Camera)
    (f1 f2 : Framebuf) :
    observe tracer tan_half_fov_of resample_ciexyz ciexyz_to_srgb
        { cam with frame := f1 } =
      observe tracer tan_half_fov_of resample_ciexyz ciexyz_to_srgb
        { cam with frame := f2 } ∧
    (cam.pixels = (0, 0) → cam.rays = 1 → cam.root_is_world = true →
      observe tracer tan_half_fov_of resample_ciexyz ciexyz_to_srgb
          { cam with frame := f1 } = .ok ⟨zeroFrame, zeroFrame⟩) := by
  constructor
  · rfl
  · intro hp hr hroot
    simp [observe, hroot, hp, hr, buildChannels, pyRange, buildChannelsGo,
      List.enum, List.foldlM]
    rfl

/-- C9 witness: a camera with a leftover constant frame renders to the
same result as with a zero frame, and with no pixels the returned frames
are exactly zero. -/
theorem claim_C9_reset_witness :
    observe (fun _ _ _ _ _ => .ok []) (fun _ => 1) (fun _ _ _ _ _ => 0)
        (fun v => v)
        { exampleCameraDetached with
            pixels := (0, 0), root_is_world := true,
            frame := fun _ _ => 37 } =
      observe (fun _ _ _ _ _ => .ok []) (fun _ => 1) (fun _ _ _ _ _ => 0)
        (fun v => v)
        { exampleCameraDetached with
            pixels := (0, 0), root_is_world := true, frame := zeroFrame } ∧
    observe (fun _ _ _ _ _ => .ok []) (fun _ => 1) (fun _ _ _ _ _ => 0)
        (fun v => v)
        { exampleCameraDetached with
            pixels := (0, 0), root_is_world := true,
            frame := fun _ _ => 37 } = .ok ⟨zeroFrame, zeroFrame⟩ := by
  have h := claim_C9_reset (fun _ _ _ _ _ => .ok []) (fun _ => 1)
    (fun _ _ _ _ _ => 0) (fun v => v)
    { exampleCameraDetached with pixels := (0, 0), root_is_world := true }
    (fun _ _ => 37) zeroFrame
  exact ⟨h.1, h.2 rfl rfl rfl⟩

/-! ## The debug Light material (C10) -/

/-- C10: Light.init clamps the stored intensity to max(0, intensity);
evaluate_surface returns exactly the requested number of samples; sample
i always equals intensity * max(0, -(to_local light_direction).dot
normal) * emission i (in both branches); when the stored intensity is 0
the result is all zeros; and every returned sample is non-negative
whenever the emission samples are non-negative (for any constructed
Light, whose stored intensity is non-negative by the clamp). -/
theorem claim_C10_light :
    (∀ (ld : Vec3) (intensity : ℚ),
      (Light.init ld intensity).intensity = max 0 intensity) ∧
    (∀ (m : LightMaterial) (to_local : Vec3 → Vec3) (normal : Vec3)
        (n : ℕ) (emission : ℕ → ℚ),
      (Light.evaluate_surface m to_local normal n emission).length = n) ∧
    (∀ (m : LightMaterial) (to_local : Vec3 → Vec3) (normal : Vec3)
        (n : ℕ) (emission : ℕ → ℚ),
      Light.evaluate_surface m to_local normal n emission =
        (List.range n).map fun i =>
          m.intensity * max 0 (-((to_local m.light_direction).dot normal))
            * emission i) ∧
    (∀ (m : LightMaterial) (to_local : Vec3 → Vec3) (normal : Vec3)
        (n : ℕ) (emission : ℕ → ℚ), m.intensity = 0 →
      Light.evaluate_surface m to_local normal n emission =
        List.replicate n 0) ∧
    (∀ (ld : Vec3) (intensity : ℚ) (to_local : Vec3 → Vec3) (normal : Vec3)
        (n : ℕ) (emission : ℕ → ℚ), (∀ i, 0 ≤ emission i) →
      ∀ q ∈ Light.evaluate_surface (Light.init ld intensity) to_local normal
          n emission, 0 ≤ q) := by
  have hformula : ∀ (m : LightMaterial) (to_local : Vec3 → Vec3)
      (normal : Vec3) (n : ℕ) (emission : ℕ → ℚ),
      Light.evaluate_surface m to_local normal n emission =
        (List.range n).map fun i =>
          m.intensity * max 0 (-((to_local m.light_direction).dot normal))
            * emission i := by
    intro m to_local normal n emission
    rw [Light.evaluate_surface]
    by_cases h : m.intensity = 0
    · simp [h, List.eq_replicate_iff]
    · simp [h]
  refine ⟨fun ld i => rfl, ?_, hformula, ?_, ?_⟩
  · intro m to_local normal n emission
    rw [hformula]
    simp
  · intro m to_local normal n emission h
    rw [hformula, h]
    simp [List.eq_replicate_iff]
  · intro ld intensity to_local normal n emission hem q hq
    rw [hformula] at hq
    simp only [List.mem_map, List.mem_range] at hq
    obtain ⟨i, -, hqe⟩ := hq
    subst hqe
    have h1 : 0 ≤ (Light.init ld intensity).intensity := le_max_left 0 intensity
    have h2 : (0 : ℚ) ≤
        max 0 (-((to_local (Light.init ld intensity).light_direction).dot
          normal)) := le_max_left _ _
    have := hem i
    positivity

/-- C10 witness: a light pointing straight down onto an upward normal
with intensity 2 and unit emission yields three samples equal to 2; a
zero-intensity light yields all zeros. -/
theorem claim_C10_light_witness :
    (Light.init ⟨0, 0, -1⟩ 2).intensity = max 0 2 ∧
    (Light.evaluate_surface (Light.init ⟨0, 0, -1⟩ 2) id ⟨0, 0, 1⟩ 3
      (fun _ => 1)).length = 3 ∧
    ((Light.init ⟨0, 0, -1⟩ 0).intensity = 0 ∧
      Light.evaluate_surface (Light.init ⟨0, 0, -1⟩ 0) id ⟨0, 0, 1⟩ 3
        (fun _ => 1) = List.replicate 3 0) ∧
    ((∀ i : ℕ, (0 : ℚ) ≤ (fun _ : ℕ => (1 : ℚ)) i) ∧
      ∀ q ∈ Light.evaluate_surface (Light.init ⟨0, 0, -1⟩ 2) id ⟨0, 0, 1⟩ 3
        (fun _ => 1), 0 ≤ q) :=
  ⟨claim_C10_light.1 ⟨0, 0, -1⟩ 2,
   claim_C10_light.2.1 (Light.init ⟨0, 0, -1⟩ 2) id ⟨0, 0, 1⟩ 3 (fun _ => 1),
   ⟨by simp [Light.init],
    claim_C10_light.2.2.2.1 (Light.init ⟨0, 0, -1⟩ 0) id ⟨0, 0, 1⟩ 3
      (fun _ => 1) (by simp [Light.init])⟩,
   ⟨fun i => by norm_num,
    claim_C10_light.2.2.2.2 ⟨0, 0, -1⟩ 2 id ⟨0, 0, 1⟩ 3 (fun _ => 1)
      (fun i => by norm_num)⟩⟩

/-! ## Failure propagation (C8) -/

theorem foldlM_except_flatMap {α β σ ε : Type} (g : α → List β)
    (f : σ → β → Except ε σ) (l : List α) (s : σ) :
    (l.flatMap g).foldlM f s = l.foldlM (fun s a => (g a).foldlM f s) s := by
  induction l generalizing s with
  | nil => rfl
  | cons a l ih =>
      rw [List.flatMap_cons, List.foldlM_append, List.foldlM_cons]
      cases h : (g a).foldlM f s with
      | error e => rfl
      | ok s1 => exact ih s1

theorem observe_eq_workItems (tracer : Tracer) (tan_half_fov_of : ℚ → ℚ)
    (resample_ciexyz : ℚ → ℚ → ℤ → ℕ → Fin 3 → ℚ)
    (ciexyz_to_srgb : (Fin 3 → ℚ) → Fin 3 → ℚ) (cam : Camera)
    (chans : List (ℚ × ℚ)) (hroot : cam.root_is_world = true)
    (hch : buildChannels cam.min_wavelength cam.max_wavelength cam.rays =
      .ok chans) :
    observe tracer tan_half_fov_of resample_ciexyz ciexyz_to_srgb cam =
      (workItems chans cam.pixels).foldlM
        (workStep tracer
          (resample_ciexyz cam.min_wavelength cam.max_wavelength
            (cam.rays * cam.spectral_samples))
          ciexyz_to_srgb (imagePlane cam.pixels (tan_half_fov_of cam.fov))
          cam.spectral_samples cam.ray_max_depth
          (cam.rays * cam.spectral_samples).toNat)
        ⟨zeroFrame, zeroFrame⟩ := by
  rw [observe, hroot]
  simp only [Bool.true_eq_false, if_false, hch]
  rw [workItems]
  simp only [foldlM_except_flatMap, List.foldlM_map]
  rfl

/-- C8: if the tracing collaborator succeeds on every work item strictly
before some item of the raster-order work list and raises on that item,
then observe propagates exactly that error (no retry, no recovery,
independent of the remaining work), and the buffers carried out are
exactly the state stPre written by the successfully processed prefix. -/
theorem claim_C8_failure (tracer : Tracer) (tan_half_fov_of : ℚ → ℚ)
    (resample_ciexyz : ℚ → ℚ → ℤ → ℕ → Fin 3 → ℚ)
    (ciexyz_to_srgb : (Fin 3 → ℚ) → Fin 3 → ℚ) (cam : Camera)
    (chans : List (ℚ × ℚ)) (pre post : List ((ℕ × (ℚ × ℚ)) × ℤ × ℤ))
    (it : (ℕ × (ℚ × ℚ)) × ℤ × ℤ) (stPre : RenderState) (e : PyError)
    (hroot : cam.root_is_world = true)
    (hch : buildChannels cam.min_wavelength cam.max_wavelength cam.rays =
      .ok chans)
    (hsplit : workItems chans cam.pixels = pre ++ it :: post)
    (hpre : pre.foldlM
      (workStep tracer
        (resample_ciexyz cam.min_wavelength cam.max_wavelength
          (cam.rays * cam.spectral_samples))
        ciexyz_to_srgb (imagePlane cam.pixels (tan_half_fov_of cam.fov))
        cam.spectral_samples cam.ray_max_depth
        (cam.rays * cam.spectral_samples).toNat)
      ⟨zeroFrame, zeroFrame⟩ = .ok stPre)
    (htr : tracer
      (rayDirection (imagePlane cam.pixels (tan_half_fov_of cam.fov))
        it.2.2 it.2.1)
      it.1.2.1 it.1.2.2 cam.spectral_samples cam.ray_max_depth =
        .error e) :
    observe tracer tan_half_fov_of resample_ciexyz ciexyz_to_srgb cam =
      .error (e, stPre) := by
  rw [observe_eq_workItems tracer tan_half_fov_of resample_ciexyz
    ciexyz_to_srgb cam chans hroot hch, hsplit, List.foldlM_append, hpre]
  have hstep : workStep tracer
      (resample_ciexyz cam.min_wavelength cam.max_wavelength
        (cam.rays * cam.spectral_samples))
      ciexyz_to_srgb (imagePlane cam.pixels (tan_half_fov_of cam.fov))
      cam.spectral_samples cam.ray_max_depth
      (cam.rays * cam.spectral_samples).toNat stPre it = .error (e, stPre) := by
    rw [workStep, pixelStep, htr]
  have hfin : (workStep tracer
      (resample_ciexyz cam.min_wavelength cam.max_wavelength
        (cam.rays * cam.spectral_samples))
      ciexyz_to_srgb (imagePlane cam.pixels (tan_half_fov_of cam.fov))
      cam.spectral_samples cam.ray_max_depth
      (cam.rays * cam.spectral_samples).toNat stPre it) >>=
        (fun init => List.foldlM (workStep tracer
          (resample_ciexyz cam.min_wavelength cam.max_wavelength
            (cam.rays * cam.spectral_samples))
          ciexyz_to_srgb (imagePlane cam.pixels (tan_half_fov_of cam.fov))
          cam.spectral_samples cam.ray_max_depth
          (cam.rays * cam.spectral_samples).toNat) init post) =
      Except.error (e, stPre) := by
    rw [hstep]
    rfl
  exact hfin

/-- C8 witness: a 1x1 camera over one channel with a tracer that raises
on its first (and only) ray: observe propagates the error and the buffers
are exactly the zero frames written before the failing pixel. -/
theorem claim_C8_failure_witness :
    buildChannels 0 1 1 = .ok [(0, 1)] ∧
    workItems [(0, 1)] (1, 1) =
      [] ++ ((0, ((0 : ℚ), (1 : ℚ))), ((0 : ℤ), (0 : ℤ))) :: [] ∧
    observe (fun _ _ _ _ _ => .error .traceError) (fun _ => 1)
        (fun _ _ _ _ _ => 0) (fun v => v)
        { exampleCameraDetached with
            pixels := (1, 1), spectral_samples := 1,
            min_wavelength := 0, max_wavelength := 1,
            root_is_world := true } =
      .error (.traceError, ⟨zeroFrame, zeroFrame⟩) := by
  have hch : buildChannels 0 1 1 = .ok [(0, 1)] := by
    rw [buildChannels, if_neg one_ne_zero]
    norm_num [pyRange, buildChannelsGo]
  have hsplit : workItems [((0 : ℚ), (1 : ℚ))] (1, 1) =
      [] ++ ((0, ((0 : ℚ), (1 : ℚ))), ((0 : ℤ), (0 : ℤ))) :: [] := by
    rfl
  refine ⟨hch, hsplit, ?_⟩
  exact claim_C8_failure (fun _ _ _ _ _ => .error .traceError) (fun _ => 1)
    (fun _ _ _ _ _ => 0) (fun v => v)
    { exampleCameraDetached with
        pixels := (1, 1), spectral_samples := 1,
        min_wavelength := 0, max_wavelength := 1, root_is_world := true }
    [(0, 1)] [] [] ((0, ((0 : ℚ), (1 : ℚ))), ((0 : ℤ), (0 : ℤ)))
    ⟨zeroFrame, zeroFrame⟩ .traceError rfl hch hsplit rfl rfl

/-! ## Accumulation: non-negativity and additivity (C7) -/

theorem foldlM_except_of_ok {σ α ε : Type} (f : σ → α → Except ε σ)
    (f0 : σ → α → σ) (hf : ∀ s a, f s a = .ok (f0 s a)) :
    ∀ (l : List α) (s : σ), l.foldlM f s = .ok (l.foldl f0 s) := by
  intro l
  induction l with
  | nil => intro s; rfl
  | cons a l ih =>
      intro s
      rw [List.foldlM_cons, hf, List.foldl_cons]
      exact ih (f0 s a)

theorem pixelStep_binTracer (g : Vec3 → ℚ → ℚ → ℚ) (table : ℕ → Fin 3 → ℚ)
    (ciexyz_to_srgb : (Fin 3 → ℚ) → Fin 3 → ℚ) (ip : ImagePlane)
    (chan : ℚ × ℚ) (num_samples ray_max_depth : ℤ)
    (lower_index total_samples : ℕ) (st : RenderState) (y x : ℤ) :
    pixelStep (binTracer g) table ciexyz_to_srgb ip chan num_samples
        ray_max_depth lower_index total_samples st y x =
      .ok (applyPixel g table ciexyz_to_srgb ip chan num_samples
        lower_index total_samples st y x) := by
  have hlen : ¬ (binSamples g (rayDirection ip x y) chan.1 chan.2
      num_samples).length ≠ num_samples.toNat := by
    rw [binSamples, List.length_map, List.length_range]
    simp
  rw [pixelStep]
  rw [show binTracer g (rayDirection ip x y) chan.1 chan.2 num_samples
      ray_max_depth = Except.ok (binSamples g (rayDirection ip x y) chan.1
        chan.2 num_samples) from rfl]
  split
  · rename_i e heq
    exact absurd heq (by simp)
  · rename_i sample heq
    rw [Except.ok.injEq] at heq
    subst heq
    rw [if_neg hlen]
    simp only [applyPixel, pixelXYZ, Function.update_same]

theorem foldl_nested_eq_flat {σ : Type} (A : σ → ℤ → ℤ → σ)
    (ys xs : List ℤ) (s : σ) :
    ys.foldl (fun s y => xs.foldl (fun s x => A s y x) s) s =
      (ys.flatMap fun y => xs.map fun x => ((y, x) : ℤ × ℤ)).foldl
        (fun s p => A s p.1 p.2) s := by
  induction ys generalizing s with
  | nil => rfl
  | cons y ys ih =>
      rw [List.foldl_cons, List.flatMap_cons, List.foldl_append,
        List.foldl_map]
      exact ih _

theorem foldl_invariant {σ α : Type} (P : σ → Prop) (f : σ → α → σ)
    (hf : ∀ s a, P s → P (f s a)) :
    ∀ (l : List α) (s : σ), P s → P (l.foldl f s) := by
  intro l
  induction l with
  | nil => intro s hs; exact hs
  | cons a l ih => intro s hs; exact ih (f s a) (hf s a hs)

theorem foldl_applyPixel_xyz (g : Vec3 → ℚ → ℚ → ℚ) (table : ℕ → Fin 3 → ℚ)
    (ciexyz_to_srgb : (Fin 3 → ℚ) → Fin 3 → ℚ) (ip : ImagePlane)
    (chan : ℚ × ℚ) (num_samples : ℤ) (lower_index total_samples : ℕ)
    (l : List (ℤ × ℤ)) (st : RenderState) (q : ℤ × ℤ) (c : Fin 3) :
    ((l.foldl (fun s p => applyPixel g table ciexyz_to_srgb ip chan
        num_samples lower_index total_samples s p.1 p.2) st).xyz_frame q c) =
      st.xyz_frame q c + (l.count q : ℚ) *
        pixelXYZ g table ip chan num_samples lower_index total_samples
          q.1 q.2 c := by
  induction l generalizing st with
  | nil => simp
  | cons p l ih =>
      rw [List.foldl_cons, ih]
      by_cases hqp : q = p
      · have happ : (applyPixel g table ciexyz_to_srgb ip chan num_samples
            lower_index total_samples st p.1 p.2).xyz_frame q c =
            st.xyz_frame q c + pixelXYZ g table ip chan num_samples
              lower_index total_samples q.1 q.2 c := by
          subst hqp
          simp [applyPixel, Function.update_apply]
        rw [happ]
        have hc : ((p :: l).count q : ℚ) = (l.count q : ℚ) + 1 := by
          subst hqp
          rw [List.count_cons_self]
          push_cast
          ring
        rw [hc]
        ring
      · have happ : (applyPixel g table ciexyz_to_srgb ip chan num_samples
            lower_index total_samples st p.1 p.2).xyz_frame q c =
            st.xyz_frame q c := by
          have hne : q ≠ (p.1, p.2) := by simpa using hqp
          simp [applyPixel, Function.update_apply, hne]
        rw [happ]
        have hc : ((p :: l).count q : ℚ) = (l.count q : ℚ) := by
          rw [List.count_cons_of_ne hqp]
        rw [hc]

theorem observe_binTracer_ok (g : Vec3 → ℚ → ℚ → ℚ)
    (tan_half_fov_of : ℚ → ℚ)
    (resample_ciexyz : ℚ → ℚ → ℤ → ℕ → Fin 3 → ℚ)
    (ciexyz_to_srgb : (Fin 3 → ℚ) → Fin 3 → ℚ) (cam : Camera)
    (chans : List (ℚ × ℚ)) (hroot : cam.root_is_world = true)
    (hch : buildChannels cam.min_wavelength cam.max_wavelength cam.rays =
      .ok chans) :
    observe (binTracer g) tan_half_fov_of resample_ciexyz ciexyz_to_srgb
        cam =
      .ok (chans.enum.foldl
        (fun st ichan =>
          (pyRange cam.pixels.2).foldl
            (fun st y =>
              (pyRange cam.pixels.1).foldl
                (fun st x =>
                  applyPixel g
                    (resample_ciexyz cam.min_wavelength cam.max_wavelength
                      (cam.rays * cam.spectral_samples))
                    ciexyz_to_srgb
                    (imagePlane cam.pixels (tan_half_fov_of cam.fov))
                    ichan.2 cam.spectral_samples
                    (cam.spectral_samples.toNat * ichan.1)
                    (cam.rays * cam.spectral_samples).toNat st y x)
                st)
            st)
        ⟨zeroFrame, zeroFrame⟩) := by
  rw [observe, hroot]
  simp only [Bool.true_eq_false, if_false, hch]
  apply foldlM_except_of_ok
  intro st ichan
  apply foldlM_except_of_ok
  intro st y
  apply foldlM_except_of_ok
  intro st x
  exact pixelStep_binTracer g _ ciexyz_to_srgb _ ichan.2 cam.spectral_samples
    cam.ray_max_depth _ _ st y x

theorem getD_nonneg : ∀ (l : List ℚ) (k : ℕ), (∀ a ∈ l, 0 ≤ a) →
    0 ≤ l.getD k 0
  | [], k, _ => by simp [List.getD]
  | a :: l, 0, h => by simpa using h a (by simp)
  | a :: l, k + 1, h => by
      rw [List.getD_cons_succ]
      exact getD_nonneg l k (fun b hb => h b (by simp [hb]))

theorem binSamples_nonneg (g : Vec3 → ℚ → ℚ → ℚ)
    (hg : ∀ d a b, 0 ≤ g d a b) (d : Vec3) (l u : ℚ) (n : ℤ) :
    ∀ a ∈ binSamples g d l u n, 0 ≤ a := by
  intro a ha
  rw [binSamples] at ha
  simp only [List.mem_map, List.mem_range] at ha
  obtain ⟨k, -, hk⟩ := ha
  rw [← hk]
  exact hg _ _ _

theorem sliceBuffer_nonneg (samples : List ℚ)
    (hs : ∀ a ∈ samples, 0 ≤ a) (lower_index num_samples i : ℕ) :
    0 ≤ sliceBuffer samples lower_index num_samples i := by
  rw [sliceBuffer]
  split
  · exact getD_nonneg samples _ hs
  · exact le_refl 0

theorem pixelXYZ_nonneg (g : Vec3 → ℚ → ℚ → ℚ) (table : ℕ → Fin 3 → ℚ)
    (ip : ImagePlane) (chan : ℚ × ℚ) (num_samples : ℤ)
    (lower_index total_samples : ℕ) (y x : ℤ) (c : Fin 3)
    (hg : ∀ d a b, 0 ≤ g d a b) (htab : ∀ i c, 0 ≤ table i c) :
    0 ≤ pixelXYZ g table ip chan num_samples lower_index total_samples
      y x c := by
  rw [pixelXYZ, spectrum_to_ciexyz]
  apply Finset.sum_nonneg
  intro i _
  exact mul_nonneg
    (sliceBuffer_nonneg _ (binSamples_nonneg g hg _ _ _ _) _ _ _) (htab i c)

theorem applyPixel_xyz_nonneg (g : Vec3 → ℚ → ℚ → ℚ)
    (table : ℕ → Fin 3 → ℚ) (ciexyz_to_srgb : (Fin 3 → ℚ) → Fin 3 → ℚ)
    (ip : ImagePlane) (chan : ℚ × ℚ) (num_samples : ℤ)
    (lower_index total_samples : ℕ) (st : RenderState) (y x : ℤ)
    (hg : ∀ d a b, 0 ≤ g d a b) (htab : ∀ i c, 0 ≤ table i c)
    (hst : ∀ q c, 0 ≤ st.xyz_frame q c) :
    ∀ q c, 0 ≤ (applyPixel g table ciexyz_to_srgb ip chan num_samples
      lower_index total_samples st y x).xyz_frame q c := by
  intro q c
  rw [applyPixel]
  simp only [Function.update_apply]
  split
  · exact add_nonneg (hst _ _)
      (pixelXYZ_nonneg g table ip chan num_samples lower_index total_samples
        y x c hg htab)
  · exact hst q c

theorem binSamples_getD (g : Vec3 → ℚ → ℚ → ℚ) (d : Vec3) (l u : ℚ)
    (n k : ℕ) (hk : k < n) :
    (binSamples g d l u (n : ℤ)).getD k 0 =
      g d (l + (u - l) * (k : ℚ) / (n : ℚ))
          (l + (u - l) * ((k : ℚ) + 1) / (n : ℚ)) := by
  rw [binSamples, Int.toNat_natCast]
  exact getD_map_range _ 0 n k hk

theorem pixelXYZ_split (g : Vec3 → ℚ → ℚ → ℚ) (table : ℕ → Fin 3 → ℚ)
    (ip : ImagePlane) (minw maxw : ℚ) (m : ℕ) (y x : ℤ) (c : Fin 3) :
    pixelXYZ g table ip (minw, minw + (maxw - minw) / 2) (m : ℤ) 0 (2 * m)
        y x c
      + pixelXYZ g table ip (minw + (maxw - minw) / 2, maxw) (m : ℤ) m
        (2 * m) y x c
      = pixelXYZ g table ip (minw, maxw) ((2 * m : ℕ) : ℤ) 0 (2 * m)
        y x c := by
  simp only [pixelXYZ, spectrum_to_ciexyz]
  rw [← Finset.sum_add_distrib]
  apply Finset.sum_congr rfl
  intro i hi
  rw [Finset.mem_range] at hi
  rw [← add_mul]
  congr 1
  simp only [sliceBuffer, Int.toNat_natCast]
  by_cases him : i < m
  · have hm : 0 < m := by omega
    have hmQ : ((m : ℕ) : ℚ) ≠ 0 := Nat.cast_ne_zero.mpr (by omega)
    have c1 : 0 ≤ i ∧ i < 0 + m := ⟨Nat.zero_le i, by omega⟩
    have c2 : ¬ (m ≤ i ∧ i < m + m) := by omega
    have c3 : 0 ≤ i ∧ i < 0 + 2 * m := ⟨Nat.zero_le i, by omega⟩
    rw [if_pos c1, if_neg c2, if_pos c3, add_zero, Nat.sub_zero]
    rw [binSamples_getD g _ _ _ m i him,
      binSamples_getD g _ _ _ (2 * m) i (by omega)]
    have e1 : minw + (minw + (maxw - minw) / 2 - minw) * (i : ℚ) / (m : ℚ)
        = minw + (maxw - minw) * (i : ℚ) / ((2 * m : ℕ) : ℚ) := by
      push_cast
      field_simp
      ring_nf
      try tauto
    have e2 : minw + (minw + (maxw - minw) / 2 - minw) * ((i : ℚ) + 1) / (m : ℚ)
        = minw + (maxw - minw) * ((i : ℚ) + 1) / ((2 * m : ℕ) : ℚ) := by
      push_cast
      field_simp
      ring_nf
      try tauto
    rw [e1, e2]
  · have hm : 0 < m := by omega
    have hmQ : ((m : ℕ) : ℚ) ≠ 0 := Nat.cast_ne_zero.mpr (by omega)
    have c1 : ¬ (0 ≤ i ∧ i < 0 + m) := by omega
    have c2 : m ≤ i ∧ i < m + m := ⟨by omega, by omega⟩
    have c3 : 0 ≤ i ∧ i < 0 + 2 * m := ⟨Nat.zero_le i, by omega⟩
    rw [if_neg c1, if_pos c2, if_pos c3, zero_add, Nat.sub_zero]
    rw [binSamples_getD g _ _ _ m (i - m) (by omega),
      binSamples_getD g _ _ _ (2 * m) i (by omega)]
    have hsub : (((i - m : ℕ)) : ℚ) = (i : ℚ) - (m : ℚ) := by
      have : m ≤ i := by omega
      push_cast [Nat.cast_sub this]
      ring
    rw [hsub]
    have e1 : minw + (maxw - minw) / 2
        + (maxw - (minw + (maxw - minw) / 2)) * ((i : ℚ) - (m : ℚ)) / (m : ℚ)
        = minw + (maxw - minw) * (i : ℚ) / ((2 * m : ℕ) : ℚ) := by
      push_cast
      field_simp
      ring_nf
      try tauto
    have e2 : minw + (maxw - minw) / 2
        + (maxw - (minw + (maxw - minw) / 2)) * ((i : ℚ) - (m : ℚ) + 1) / (m : ℚ)
        = minw + (maxw - minw) * ((i : ℚ) + 1) / ((2 * m : ℕ) : ℚ) := by
      push_cast
      field_simp
      ring_nf
      try tauto
    rw [e1, e2]

theorem twoChannel_eq_oneChannel (g : Vec3 → ℚ → ℚ → ℚ)
    (table : ℕ → Fin 3 → ℚ) (ciexyz_to_srgb : (Fin 3 → ℚ) → Fin 3 → ℚ)
    (ip : ImagePlane) (minw maxw : ℚ) (m : ℕ) (ys xs : List ℤ)
    (q : ℤ × ℤ) (c : Fin 3) :
    (([(minw, minw + (maxw - minw) / 2),
       (minw + (maxw - minw) / 2, maxw)].enum.foldl
        (fun st ichan => ys.foldl (fun st y => xs.foldl (fun st x =>
          applyPixel g table ciexyz_to_srgb ip ichan.2 ((m : ℕ) : ℤ)
            (m * ichan.1) (2 * m) st y x) st) st)
        ⟨zeroFrame, zeroFrame⟩).xyz_frame q c) =
      (([(minw, maxw)].enum.foldl
        (fun st ichan => ys.foldl (fun st y => xs.foldl (fun st x =>
          applyPixel g table ciexyz_to_srgb ip ichan.2 ((2 * m : ℕ) : ℤ)
            (2 * m * ichan.1) (2 * m) st y x) st) st)
        ⟨zeroFrame, zeroFrame⟩).xyz_frame q c) := by
  have henum2 : ([(minw, minw + (maxw - minw) / 2),
      (minw + (maxw - minw) / 2, maxw)] : List (ℚ × ℚ)).enum =
      [(0, (minw, minw + (maxw - minw) / 2)),
       (1, (minw + (maxw - minw) / 2, maxw))] := rfl
  have henum1 : ([(minw, maxw)] : List (ℚ × ℚ)).enum = [(0, (minw, maxw))] :=
    rfl
  rw [henum2, henum1]
  simp only [List.foldl_cons, List.foldl_nil]
  rw [foldl_nested_eq_flat, foldl_nested_eq_flat, foldl_nested_eq_flat]
  rw [foldl_applyPixel_xyz, foldl_applyPixel_xyz, foldl_applyPixel_xyz]
  have hz : (⟨zeroFrame, zeroFrame⟩ : RenderState).xyz_frame q c = 0 := rfl
  rw [hz]
  simp only [Nat.mul_zero, Nat.mul_one, Prod.fst, Prod.snd]
  rw [← pixelXYZ_split g table ip minw maxw m q.1 q.2 c]
  ring

/-- C7: under the spectrally consistent non-negative tracer and a
non-negative colour-matching table, every accumulated tristimulus entry of
a completed render is non-negative; and rendering with channel_count = 2
and spectral_samples = m accumulates, per pixel and component, exactly
the same tristimulus value as rendering with channel_count = 1 over the
same wavelength range with the same total sample count 2 * m — the
per-channel contributions sum to the single-channel value exactly (no
floating-point tolerance is needed over exact rationals). -/
theorem claim_C7_accumulation (g : Vec3 → ℚ → ℚ → ℚ)
    (tan_half_fov_of : ℚ → ℚ)
    (resample_ciexyz : ℚ → ℚ → ℤ → ℕ → Fin 3 → ℚ)
    (ciexyz_to_srgb : (Fin 3 → ℚ) → Fin 3 → ℚ) (cam : Camera) (m : ℕ)
    (hg : ∀ d a b, 0 ≤ g d a b)
    (htab : ∀ a b n i c, 0 ≤ resample_ciexyz a b n i c)
    (hroot : cam.root_is_world = true) :
    (∀ st, observe (binTracer g) tan_half_fov_of resample_ciexyz
        ciexyz_to_srgb cam = .ok st → ∀ q c, 0 ≤ st.xyz_frame q c) ∧
    (∀ st1 st2,
      observe (binTracer g) tan_half_fov_of resample_ciexyz ciexyz_to_srgb
        { cam with rays := 1, spectral_samples := ((2 * m : ℕ) : ℤ) } =
          .ok st1 →
      observe (binTracer g) tan_half_fov_of resample_ciexyz ciexyz_to_srgb
        { cam with rays := 2, spectral_samples := ((m : ℕ) : ℤ) } =
          .ok st2 →
      ∀ q c, st2.xyz_frame q c = st1.xyz_frame q c) := by
  constructor
  · intro st hst q c
    by_cases hrays : cam.rays = 0
    · have herr : buildChannels cam.min_wavelength cam.max_wavelength
          cam.rays = .error .zeroDivisionError := by
        rw [buildChannels, if_pos hrays]
      have hobs : observe (binTracer g) tan_half_fov_of resample_ciexyz
          ciexyz_to_srgb cam =
          .error (.zeroDivisionError, ⟨zeroFrame, zeroFrame⟩) := by
        rw [observe, hroot]
        simp only [Bool.true_eq_false, if_false, herr]
      rw [hobs] at hst
      exact absurd hst (by simp)
    · have hch : buildChannels cam.min_wavelength cam.max_wavelength
          cam.rays = .ok (buildChannelsGo cam.min_wavelength
            ((cam.max_wavelength - cam.min_wavelength) / (cam.rays : ℚ))
            cam.min_wavelength (pyRange cam.rays)) := by
        rw [buildChannels, if_neg hrays]
      rw [observe_binTracer_ok g tan_half_fov_of resample_ciexyz
        ciexyz_to_srgb cam _ hroot hch, Except.ok.injEq] at hst
      subst hst
      refine foldl_invariant
        (fun st : RenderState => ∀ q c, 0 ≤ st.xyz_frame q c) _ ?_ _ _ ?_ q c
      · intro s ichan hs
        refine foldl_invariant
          (fun st : RenderState => ∀ q c, 0 ≤ st.xyz_frame q c) _ ?_ _ _ hs
        intro s y hs2
        refine foldl_invariant
          (fun st : RenderState => ∀ q c, 0 ≤ st.xyz_frame q c) _ ?_ _ _ hs2
        intro s x hs3
        exact applyPixel_xyz_nonneg g _ ciexyz_to_srgb _ ichan.2
          cam.spectral_samples _ _ s y x hg
          (fun i c => htab _ _ _ i c) hs3
      · intro q c
        exact le_refl 0
  · intro st1 st2 h1 h2 q c
    have hch1 : buildChannels cam.min_wavelength cam.max_wavelength 1 =
        .ok [(cam.min_wavelength, cam.max_wavelength)] := by
      rw [buildChannels, if_neg one_ne_zero]
      simp [pyRange, buildChannelsGo]
    have hch2 : buildChannels cam.min_wavelength cam.max_wavelength 2 =
        .ok [(cam.min_wavelength, cam.min_wavelength +
                (cam.max_wavelength - cam.min_wavelength) / 2),
             (cam.min_wavelength +
                (cam.max_wavelength - cam.min_wavelength) / 2,
              cam.max_wavelength)] := by
      rw [buildChannels, if_neg two_ne_zero]
      simp [pyRange, buildChannelsGo, List.range_succ]
      ring
    rw [observe_binTracer_ok g tan_half_fov_of resample_ciexyz
      ciexyz_to_srgb
      { cam with rays := 1, spectral_samples := ((2 * m : ℕ) : ℤ) }
      [(cam.min_wavelength, cam.max_wavelength)] hroot hch1,
      Except.ok.injEq] at h1
    rw [observe_binTracer_ok g tan_half_fov_of resample_ciexyz
      ciexyz_to_srgb
      { cam with rays := 2, spectral_samples := ((m : ℕ) : ℤ) }
      [(cam.min_wavelength, cam.min_wavelength +
          (cam.max_wavelength - cam.min_wavelength) / 2),
       (cam.min_wavelength +
          (cam.max_wavelength - cam.min_wavelength) / 2,
        cam.max_wavelength)] hroot hch2,
      Except.ok.injEq] at h2
    subst h1
    subst h2
    dsimp only
    simp only [one_mul, Int.toNat_natCast,
      show ((2 : ℤ) * ((m : ℕ) : ℤ)) = ((2 * m : ℕ) : ℤ) from by
        push_cast; ring]
    exact twoChannel_eq_oneChannel g _ ciexyz_to_srgb _ cam.min_wavelength
      cam.max_wavelength m _ _ q c

set_option maxHeartbeats 4000000

/-- C7 witness: with the constant-1 spectrally consistent scene, the
constant-1 colour table and m = 1, both renders succeed and the theorem
applies; its hypotheses hold at these concrete inputs. -/
theorem claim_C7_accumulation_witness :
    (∀ (d : Vec3) (a b : ℚ), 0 ≤ (fun _ _ _ => (1 : ℚ)) d a b) ∧
    (∀ (a b : ℚ) (n : ℤ) (i : ℕ) (c : Fin 3),
      0 ≤ (fun _ _ _ _ _ => (1 : ℚ)) a b n i c) ∧
    ({ exampleCameraDetached with root_is_world := true, pixels := (1, 1), min_wavelength := 0, max_wavelength := 1 }).root_is_world
      = true ∧
    (∃ st1, observe (binTracer (fun _ _ _ => 1)) (fun _ => 1)
        (fun _ _ _ _ _ => 1) (fun v => v)
        { { exampleCameraDetached with root_is_world := true, pixels := (1, 1), min_wavelength := 0, max_wavelength := 1 } with
            rays := 1, spectral_samples := ((2 * 1 : ℕ) : ℤ) } =
          .ok st1) ∧
    (∃ st2, observe (binTracer (fun _ _ _ => 1)) (fun _ => 1)
        (fun _ _ _ _ _ => 1) (fun v => v)
        { { exampleCameraDetached with root_is_world := true, pixels := (1, 1), min_wavelength := 0, max_wavelength := 1 } with
            rays := 2, spectral_samples := ((1 : ℕ) : ℤ) } =
          .ok st2) ∧
    (∀ st1 st2,
      observe (binTracer (fun _ _ _ => 1)) (fun _ => 1)
        (fun _ _ _ _ _ => 1) (fun v => v)
        { { exampleCameraDetached with root_is_world := true, pixels := (1, 1), min_wavelength := 0, max_wavelength := 1 } with
            rays := 1, spectral_samples := ((2 * 1 : ℕ) : ℤ) } =
          .ok st1 →
      observe (binTracer (fun _ _ _ => 1)) (fun _ => 1)
        (fun _ _ _ _ _ => 1) (fun v => v)
        { { exampleCameraDetached with root_is_world := true, pixels := (1, 1), min_wavelength := 0, max_wavelength := 1 } with
            rays := 2, spectral_samples := ((1 : ℕ) : ℤ) } =
          .ok st2 →
      ∀ q c, st2.xyz_frame q c = st1.xyz_frame q c) := by
  have hmain := claim_C7_accumulation (fun _ _ _ => 1) (fun _ => 1)
    (fun _ _ _ _ _ => 1) (fun v => v)
    { exampleCameraDetached with root_is_world := true, pixels := (1, 1), min_wavelength := 0, max_wavelength := 1 } 1
    (fun d a b => by norm_num) (fun a b n i c => by norm_num) rfl
  refine ⟨fun d a b => by norm_num, fun a b n i c => by norm_num, rfl,
    ?_, ?_, hmain.2⟩
  · exact ⟨_, observe_binTracer_ok (fun _ _ _ => 1) (fun _ => 1)
      (fun _ _ _ _ _ => 1) (fun v => v)
      { { exampleCameraDetached with root_is_world := true, pixels := (1, 1), min_wavelength := 0, max_wavelength := 1 } with
          rays := 1, spectral_samples := ((2 * 1 : ℕ) : ℤ) } _ rfl
      (by rw [buildChannels, if_neg one_ne_zero])⟩
  · exact ⟨_, observe_binTracer_ok (fun _ _ _ => 1) (fun _ => 1)
      (fun _ _ _ _ _ => 1) (fun v => v)
      { { exampleCameraDetached with root_is_world := true, pixels := (1, 1), min_wavelength := 0, max_wavelength := 1 } with
          rays := 2, spectral_samples := ((1 : ℕ) : ℤ) } _ rfl
      (by rw [buildChannels, if_neg two_ne_zero])⟩
